import Mathlib

/-!
# Verification of the N-to-1 Google Calendar sync engine

Shallow embedding of the core synchronization logic of the repository
(`syncState.js` / `SyncStateManager`, `utils.js` payload and matching helpers,
`main.js` / `code.js` orchestration), together with proofs of the behavioural
properties stated in the natural-language specification.

Conventions of the embedding:
* JavaScript timestamps (`Date.now()`, `new Date(x).getTime()`) are modelled as
  `Int` milliseconds since the epoch, passed explicitly wherever the source
  reads the clock.
* JavaScript `Map` objects are modelled as association lists
  `List (String × α)`; `Map.get` returns the first entry with the key,
  `Map.set` overwrites in place or appends, and iteration-plus-delete during
  cleanup is a filter.  Keys produced by the program are pairwise distinct, so
  the first-match lookup agrees with `Map` semantics.
* Fields that may be `undefined` in JavaScript are `Option`s; `undefined`
  deletion from payloads (`delete eventData[key]`) is the identity on this
  representation.
-/

set_option linter.unusedVariables false

/-- Models `Map.get` on an association list: first entry whose key matches. -/
def mapGet {α : Type} (m : List (String × α)) (k : String) : Option α :=
  (m.find? (fun p => p.1 = k)).map Prod.snd

/-- Models `Map.set` on an association list: overwrite the entry in place when the
key is present, append otherwise. -/
def mapSet {α : Type} (m : List (String × α)) (k : String) (v : α) :
    List (String × α) :=
  if m.any (fun p => p.1 = k) then
    m.map (fun p => if p.1 = k then (k, v) else p)
  else
    m ++ [(k, v)]

/-- One record of `operationHistory` / `syncOperations`
(`syncState.js`, `recordOperation`).  The free-form `metadata` object is kept
as a list of string pairs; no logic inspects it. -/
structure OperationRecord where
  id : String
  sourceCalendarId : String
  targetCalendarId : String
  eventId : String
  operation : String
  timestamp : Int
  metadata : List (String × String)
  deriving Repr, DecidableEq

/-- One entry of the `changeOrigin` map (`syncState.js`). -/
structure ChangeOriginEntry where
  originCalendarId : String
  timestamp : Int
  operationId : String
  deriving Repr, DecidableEq

/-- The constant `maxHistorySize` is set in the `SyncStateManager` constructor and never
reassigned anywhere in the repository. -/
def maxHistorySize : Nat := 1000

/-- The mutable state of `SyncStateManager` (`syncState.js`).
`loopDetectionWindow` is a field because `runNto1Sync` reassigns it from the
configuration. -/
structure SyncStateManager where
  syncOperations : List (String × OperationRecord)
  changeOrigin : List (String × ChangeOriginEntry)
  operationHistory : List OperationRecord
  loopDetectionWindow : Int
  deriving Repr, DecidableEq

/-- The `SyncStateManager` constructor: empty maps and history, 5-minute
(300000 ms) loop-detection window. -/
def SyncStateManager.init : SyncStateManager :=
  { syncOperations := []
    changeOrigin := []
    operationHistory := []
    loopDetectionWindow := 300000 }

/-- Models `generateOperationId(calendarId, eventId, operation)`; the trailing
`Date.now()` is the explicit `now` argument. -/
def generateOperationId (calendarId eventId operation : String) (now : Int) :
    String :=
  calendarId ++ ":" ++ eventId ++ ":" ++ operation ++ ":" ++ toString now

/-- Models `cleanupOldOperations()`: drop history records at or below the cutoff,
delete map entries at or below the cutoff, then cap the history to the last
`maxHistorySize` records (`slice(-maxHistorySize)` keeps the newest suffix). -/
def SyncStateManager.cleanupOldOperations (m : SyncStateManager) (now : Int) :
    SyncStateManager :=
  let cutoffTime := now - m.loopDetectionWindow
  let operationHistory := m.operationHistory.filter
    (fun op => cutoffTime < op.timestamp)
  let syncOperations := m.syncOperations.filter
    (fun p => ¬ p.2.timestamp ≤ cutoffTime)
  let changeOrigin := m.changeOrigin.filter
    (fun p => ¬ p.2.timestamp ≤ cutoffTime)
  let operationHistory :=
    if maxHistorySize < operationHistory.length then
      operationHistory.drop (operationHistory.length - maxHistorySize)
    else operationHistory
  { m with operationHistory := operationHistory
           syncOperations := syncOperations
           changeOrigin := changeOrigin }

/-- Models `recordOperation(sourceCalendarId, targetCalendarId, eventId, operation,
metadata)`: append the record to the history, store it in `syncOperations`
under its operation id, mark the change origin under
`targetCalendarId:eventId`, then run the cleanup pass.  `now` is the
`Date.now()` read at the top of the function. -/
def SyncStateManager.recordOperation (m : SyncStateManager)
    (sourceCalendarId targetCalendarId eventId operation : String)
    (metadata : List (String × String)) (now : Int) : SyncStateManager :=
  let operationId := generateOperationId targetCalendarId eventId operation now
  let operationRecord : OperationRecord :=
    { id := operationId
      sourceCalendarId := sourceCalendarId
      targetCalendarId := targetCalendarId
      eventId := eventId
      operation := operation
      timestamp := now
      metadata := metadata }
  let changeKey := targetCalendarId ++ ":" ++ eventId
  let m' :=
    { m with operationHistory := m.operationHistory ++ [operationRecord]
             syncOperations := mapSet m.syncOperations operationId operationRecord
             changeOrigin := mapSet m.changeOrigin changeKey
               { originCalendarId := sourceCalendarId
                 timestamp := now
                 operationId := operationId } }
  m'.cleanupOldOperations now

/-- Stable insertion (descending by `timestamp`) used to model the stable
JavaScript `Array.prototype.sort` with comparator `b.timestamp - a.timestamp`:
a record is placed after every earlier record with a greater-or-equal
timestamp. -/
def insertByTimestampDesc (x : OperationRecord) :
    List OperationRecord → List OperationRecord
  | [] => [x]
  | y :: ys =>
    if x.timestamp ≤ y.timestamp then y :: insertByTimestampDesc x ys
    else x :: y :: ys

/-- Stable descending-by-timestamp sort
(`.sort((a, b) => b.timestamp - a.timestamp)`). -/
def sortByTimestampDesc (l : List OperationRecord) : List OperationRecord :=
  l.foldl (fun acc x => insertByTimestampDesc x acc) []

/-- The `recentOperations` computation of `detectPingPongPattern`: history
records inside the window, on the given event, involving the given calendar
pair, newest first. -/
def recentPairOperations (m : SyncStateManager) (now : Int)
    (sourceCalendarId targetCalendarId eventId : String) :
    List OperationRecord :=
  sortByTimestampDesc (m.operationHistory.filter (fun op =>
    now - op.timestamp < m.loopDetectionWindow ∧
    op.eventId = eventId ∧
    (op.sourceCalendarId = sourceCalendarId ∨
      op.targetCalendarId = sourceCalendarId) ∧
    (op.sourceCalendarId = targetCalendarId ∨
      op.targetCalendarId = targetCalendarId)))

/-- The `isAlternating` check of `detectPingPongPattern`: every record after
the first reverses the direction of its predecessor. -/
def isAlternating : List OperationRecord → Bool
  | [] => true
  | [_] => true
  | a :: b :: rest =>
    (b.sourceCalendarId = a.targetCalendarId ∧
      b.targetCalendarId = a.sourceCalendarId : Prop) &&
    isAlternating (b :: rest)

/-- Models `detectPingPongPattern(sourceCalendarId, targetCalendarId, eventId)`. -/
def SyncStateManager.detectPingPongPattern (m : SyncStateManager) (now : Int)
    (sourceCalendarId targetCalendarId eventId : String) : Bool :=
  let recentOperations :=
    recentPairOperations m now sourceCalendarId targetCalendarId eventId
  if 4 ≤ recentOperations.length then
    isAlternating (recentOperations.take 4)
  else
    false

/-- Models `wouldCreateLoop(sourceCalendarId, targetCalendarId, eventId, operation)`.
The `operation` argument is accepted and ignored, exactly as in the source. -/
def SyncStateManager.wouldCreateLoop (m : SyncStateManager) (now : Int)
    (sourceCalendarId targetCalendarId eventId operation : String) : Bool :=
  let changeKey := sourceCalendarId ++ ":" ++ eventId
  match mapGet m.changeOrigin changeKey with
  | none => false
  | some recentChange =>
    let timeDiff := now - recentChange.timestamp
    if recentChange.originCalendarId = targetCalendarId ∧
        timeDiff < m.loopDetectionWindow then
      true
    else
      m.detectPingPongPattern now sourceCalendarId targetCalendarId eventId

/-- Models `shouldSkipSync(sourceCalendarId, targetCalendarId, eventId,
sourceUpdated, targetUpdated)`.  The two `Date` arguments are their epoch
millisecond values. -/
def SyncStateManager.shouldSkipSync (m : SyncStateManager) (now : Int)
    (sourceCalendarId targetCalendarId eventId : String)
    (sourceUpdated targetUpdated : Int) : Bool :=
  let changeKey := targetCalendarId ++ ":" ++ eventId
  match mapGet m.changeOrigin changeKey with
  | none => false
  | some recentChange =>
    let timeDiff := now - recentChange.timestamp
    if recentChange.originCalendarId = sourceCalendarId ∧
        timeDiff < m.loopDetectionWindow then
      if (sourceUpdated - targetUpdated).natAbs < 60000 then true else false
    else
      false

example :
    (SyncStateManager.init.recordOperation "A" "B" "e1" "update" [] 10
      |>.wouldCreateLoop 20 "B" "A" "e1" "update") = true := by decide

example :
    (SyncStateManager.init.recordOperation "A" "B" "e1" "update" [] 10
      |>.wouldCreateLoop 20 "A" "B" "e1" "update") = false := by decide

example :
    (SyncStateManager.init.recordOperation "A" "B" "e1" "update" [] 10
      |>.shouldSkipSync 20 "A" "B" "e1" 1000 50000) = true := by decide

example :
    (SyncStateManager.init.recordOperation "A" "B" "e1" "update" [] 10
      |>.shouldSkipSync 20 "A" "B" "e1" 1000 70000) = false := by decide

/-- Truthiness of an optional JavaScript string (`undefined` and `""` are
falsy). -/
def truthy : Option String → Bool
  | none => false
  | some s => s ≠ ""

/-- JavaScript `a || b` on two optional strings. -/
def jsOr (a b : Option String) : Option String :=
  if truthy a then a else b

/-- A `start`/`end` value of a calendar event: a `dateTime` or a `date`
field (or, for malformed events, neither or both). -/
structure EventDateTime where
  dateTime : Option String
  date : Option String
  deriving Repr, DecidableEq

/-- One attendee, `{email, responseStatus}`. -/
structure Attendee where
  email : String
  responseStatus : String
  deriving Repr, DecidableEq

/-- The private extended properties the sync engine reads from an event
(`event.extendedProperties.private`).  Each field may be absent. -/
structure PrivateProps where
  SYNC_KEY : Option String
  SYNC_SOURCE : Option String
  SYNC_ORIGINAL_ID : Option String
  SYNC_VERSION : Option String
  SYNC_UPDATED : Option String
  deriving Repr, DecidableEq

/-- Models `event.extendedProperties`. -/
structure ExtendedProperties where
  «private» : Option PrivateProps
  deriving Repr, DecidableEq

/-- A calendar event as read from the API.  `updated` is the epoch
millisecond value of the RFC-3339 `updated` string (the code only ever uses
it through `new Date(event.updated)` comparisons).  The `reminders` object is
copied verbatim and never inspected, so it is kept abstract as a string. -/
structure Event where
  id : String
  summary : Option String
  description : Option String
  location : Option String
  start : Option EventDateTime
  «end» : Option EventDateTime
  attendees : Option (List Attendee)
  reminders : Option String
  transparency : Option String
  visibility : Option String
  status : Option String
  updated : Int
  extendedProperties : Option ExtendedProperties
  deriving Repr, DecidableEq

/-- Reads `event.extendedProperties?.private?.SYNC_KEY`. -/
def Event.syncKeyProp (event : Event) : Option String :=
  (event.extendedProperties.bind ExtendedProperties.«private»).bind
    PrivateProps.SYNC_KEY

/-- Reads `event.extendedProperties?.private?.SYNC_SOURCE`. -/
def Event.syncSourceProp (event : Event) : Option String :=
  (event.extendedProperties.bind ExtendedProperties.«private»).bind
    PrivateProps.SYNC_SOURCE

/-- Reads `event.extendedProperties?.private?.SYNC_ORIGINAL_ID`. -/
def Event.syncOriginalIdProp (event : Event) : Option String :=
  (event.extendedProperties.bind ExtendedProperties.«private»).bind
    PrivateProps.SYNC_ORIGINAL_ID

/-- Models `generateSyncKey(event, sourceCalendarId)` (`utils.js`). -/
def generateSyncKey (event : Event) (sourceCalendarId : String) : String :=
  sourceCalendarId ++ ":" ++ event.id

/-- Models `createEventMapForSource(events, sourceId)` (`utils.js`): index the target
events that carry a truthy `SYNC_KEY` and whose `SYNC_SOURCE` equals the given
source id; later events overwrite earlier ones under the same key, as with a
JavaScript object. -/
def createEventMapForSource (events : List Event) (sourceId : String) :
    List (String × Event) :=
  events.foldl (fun eventMap event =>
    let syncKey := event.syncKeyProp
    let syncSource := event.syncSourceProp
    if truthy syncKey ∧ syncSource = some sourceId then
      mapSet eventMap (syncKey.getD "") event
    else
      eventMap) []

/-- Resolves `sourceEvent.start?.dateTime || sourceEvent.start?.date`. -/
def resolvedStart (event : Event) : Option String :=
  jsOr (event.start.bind EventDateTime.dateTime)
    (event.start.bind EventDateTime.date)

/-- Resolves `sourceEvent.end?.dateTime || sourceEvent.end?.date`. -/
def resolvedEnd (event : Event) : Option String :=
  jsOr (event.«end».bind EventDateTime.dateTime)
    (event.«end».bind EventDateTime.date)

/-- The predicate passed to `events.find(...)` in `findEventByAttributes`:
reject events that already carry a (truthy) `SYNC_KEY`, then require summary,
resolved start, and resolved end to match exactly. -/
def eventAttributesMatch (sourceEvent event : Event) : Bool :=
  if truthy event.syncKeyProp then false
  else
    let summaryMatch := event.summary = sourceEvent.summary
    let sourceStart := resolvedStart sourceEvent
    let sourceEnd := resolvedEnd sourceEvent
    let targetStart := resolvedStart event
    let targetEnd := resolvedEnd event
    let startMatch := sourceStart = targetStart
    let endMatch := sourceEnd = targetEnd
    (summaryMatch : Bool) && startMatch && endMatch

/-- Models `findEventByAttributes(events, sourceEvent)` (`utils.js`). -/
def findEventByAttributes (events : List Event) (sourceEvent : Event) :
    Option Event :=
  events.find? (eventAttributesMatch sourceEvent)

/-- Models `generateSyncVersion()`, which returns `Date.now().toString()`.  The decimal
rendering of the millisecond clock is injective, so the version token is
modelled by the clock value itself; equality of tokens coincides with
equality of these values. -/
def generateSyncVersion (now : Int) : Int := now

/-- The `extendedProperties.private` block attached by `_buildEventPayload`.
`SYNC_VERSION` is the `generateSyncVersion` token and `SYNC_UPDATED` the
`new Date().toISOString()` stamp; both are modelled by the millisecond clock
value they render (both renderings are injective at millisecond
precision). -/
structure SyncPrivateProps where
  SYNC_KEY : String
  SYNC_SOURCE : String
  SYNC_ORIGINAL_ID : String
  SYNC_VERSION : Int
  SYNC_UPDATED : Int
  deriving Repr, DecidableEq

/-- The `extendedProperties` block of a freshly built mirror payload. -/
structure PayloadExtendedProperties where
  «private» : SyncPrivateProps
  deriving Repr, DecidableEq

/-- A payload produced by `_buildEventPayload`.  Fields whose source value is
`undefined` are deleted by the JavaScript; on this `Option` representation
that deletion is the identity. -/
structure EventPayload where
  summary : Option String
  description : Option String
  location : Option String
  start : Option EventDateTime
  «end» : Option EventDateTime
  attendees : Option (List Attendee)
  reminders : Option String
  transparency : Option String
  visibility : Option String
  extendedProperties : PayloadExtendedProperties
  deriving Repr, DecidableEq

/-- Models `_buildEventPayload(sourceEvent, sourceCalendarId)` (`utils.js`); `now` is
the clock read by `generateSyncVersion` and `new Date().toISOString()`. -/
def _buildEventPayload (sourceEvent : Event) (sourceCalendarId : String)
    (now : Int) : EventPayload :=
  let syncKey := generateSyncKey sourceEvent sourceCalendarId
  let syncVersion := generateSyncVersion now
  { summary := sourceEvent.summary
    description := sourceEvent.description
    location := sourceEvent.location
    start := sourceEvent.start
    «end» := sourceEvent.«end»
    attendees := sourceEvent.attendees
    reminders := sourceEvent.reminders
    transparency := sourceEvent.transparency
    visibility := sourceEvent.visibility
    extendedProperties :=
      { «private» :=
        { SYNC_KEY := syncKey
          SYNC_SOURCE := sourceCalendarId
          SYNC_ORIGINAL_ID := sourceEvent.id
          SYNC_VERSION := syncVersion
          SYNC_UPDATED := now } } }

/-- The content fields of a payload (everything except the attached sync
metadata): summary, description, location, start, end, attendees, reminders,
transparency, visibility. -/
def payloadContent (p : EventPayload) :=
  (p.summary, p.description, p.location, p.start, p.«end», p.attendees,
    p.reminders, p.transparency, p.visibility)

/-- The action the forward pass (`syncSourceToTarget`, `code.js`) takes for
one source event.  `skippedLoop` is the early return after `wouldCreateLoop`,
`skippedShould` the early return after `shouldSkipSync`. -/
inductive SyncAction where
  | skippedLoop : SyncAction
  | deletedInTarget : String → SyncAction
  | created : SyncAction
  | skippedShould : SyncAction
  | updatedInTarget : String → SyncAction
  | noop : SyncAction
  deriving Repr, DecidableEq

/-- Whether an action issues a write against the calendar API. -/
def SyncAction.isWrite : SyncAction → Bool
  | .deletedInTarget _ => true
  | .created => true
  | .updatedInTarget _ => true
  | _ => false

/-- The per-event body of `sourceEvents.forEach(...)` in `syncSourceToTarget`
(`code.js`): look the source event up in the target map by sync key, consult
`wouldCreateLoop`, then decide delete / create / update / no-op, recording
every performed operation in the state manager.  Returns the action taken and
the updated state manager. -/
def processSourceEvent (syncStateManager : SyncStateManager) (now : Int)
    (sourceId targetId : String) (allTargetEvents : List Event)
    (sourceEvent : Event) : SyncAction × SyncStateManager :=
  let targetEventMap := createEventMapForSource allTargetEvents sourceId
  let expectedSyncKey := generateSyncKey sourceEvent sourceId
  let targetEvent := mapGet targetEventMap expectedSyncKey
  if syncStateManager.wouldCreateLoop now sourceId targetId sourceEvent.id
      "update" then
    (.skippedLoop, syncStateManager)
  else if sourceEvent.status = some "cancelled" then
    match targetEvent with
    | some t =>
      if t.status ≠ some "cancelled" then
        (.deletedInTarget t.id,
          syncStateManager.recordOperation sourceId targetId sourceEvent.id
            "delete" [] now)
      else
        (.noop, syncStateManager)
    | none => (.noop, syncStateManager)
  else
    match targetEvent with
    | none =>
      (.created,
        syncStateManager.recordOperation sourceId targetId sourceEvent.id
          "create" [] now)
    | some t =>
      let sourceUpdated := sourceEvent.updated
      let targetUpdated := t.updated
      if syncStateManager.shouldSkipSync now sourceId targetId sourceEvent.id
          sourceUpdated targetUpdated then
        (.skippedShould, syncStateManager)
      else if targetUpdated < sourceUpdated then
        (.updatedInTarget t.id,
          syncStateManager.recordOperation sourceId targetId sourceEvent.id
            "update" [("sourceUpdated", toString sourceUpdated),
              ("targetUpdated", toString targetUpdated)] now)
      else
        (.noop, syncStateManager)

/-- A JavaScript error value as thrown by the calendar API wrappers; Apps
Script API failures are `Error` objects carrying a `message` string. -/
structure JsError where
  message : String
  deriving Repr, DecidableEq

/-- Is `pat` a contiguous sublist of the second argument? -/
def listContainsInfix (pat : List Char) : List Char → Bool
  | [] => pat.isEmpty
  | c :: rest => List.isPrefixOf pat (c :: rest) || listContainsInfix pat rest

/-- Models `String.prototype.includes(pattern)`: substring containment, modelled on
the character lists. -/
def jsIncludes (s pattern : String) : Bool :=
  listContainsInfix pattern.data s.data

/-- Models `deleteEvent(calendarId, eventId)` (`utils.js`): call
`Calendar.Events.remove` inside a `try`; on success return its result, on any
error log (distinguishing "Not Found") and fall through to `return
undefined`.  `removeResult` is the outcome of the underlying `remove` call;
the returned `Except` is `.error` only if the function itself would throw,
and the second component is the console output. -/
def deleteEvent {α : Type} (calendarId eventId : String)
    (removeResult : Except JsError α) :
    Except JsError (Option α) × List String :=
  match removeResult with
  | .ok v => (.ok (some v), [])
  | .error error =>
    if jsIncludes error.message "Not Found" then
      (.ok none,
        [s!"Attempt to delete event {eventId}, which no longer exists."])
    else
      (.ok none, [s!"Error deleting event {eventId}"])

/-- The summary object built in the `finally` block of `runNto1Sync`
(`code.js`); `timestamp` is the epoch millisecond value of the ISO string. -/
structure FinalStatus where
  success : Bool
  criticalErrors : Nat
  recoverableErrors : Nat
  timestamp : Int
  deriving Repr, DecidableEq

/-- The effectful steps of one `runNto1Sync` invocation (`code.js`,
the configurable variant), in the order the function performs them:

* `lockAcquired` — the result of `lock.tryLock(LOCK_TIMEOUT)`;
* `initProgress` — the outcome of `initializeProgressTracking`, which runs
  after lock acquisition but *before* the `try` block and writes
  `SYNC_PROGRESS` through an unguarded `setProperty` call
  (`getConfigurationForSync`, which runs just before it, has an internal
  `try`/`catch` with a static fallback and cannot throw);
* `body` — the outcome of the `try` block (target snapshot load, forward
  passes, reverse pass): on normal completion the accumulated
  `(criticalErrors, recoverableErrors, syncSuccess)`, on a throw the error
  message together with the counts accumulated before the throw;
* `storeStatus` — the outcome of the guarded
  `setProperty('LAST_SYNC_STATUS', ...)` in the `finally` block;
* `now` — the clock used for the summary timestamp. -/
structure RunEffects where
  lockAcquired : Bool
  initProgress : Except String Unit
  body : Except (String × Nat × Nat) (Nat × Nat × Bool)
  storeStatus : Except String Unit
  now : Int
  deriving Repr

/-- The observable outcome of one `runNto1Sync` invocation:
`escaped` is the exception propagated to the caller (if any), `lockReleased`
whether `lock.releaseLock()` ran, `summaryLogged` the final status object
logged in the `finally` block, `summaryStored` whether it was persisted. -/
structure RunResult where
  escaped : Option String
  lockReleased : Bool
  summaryLogged : Option FinalStatus
  summaryStored : Bool
  deriving Repr, DecidableEq

/-- Control skeleton of `runNto1Sync` (`code.js`): failed lock acquisition
returns at once; configuration loading and progress-tracker initialization
run with the lock held but outside the `try`/`catch`/`finally`; inside it,
every `body` throw is caught, classified, and pushed onto `criticalErrors`
(with `syncSuccess` left `false`), and the `finally` block releases the lock,
logs the summary, and stores it behind its own `try`/`catch`. -/
def runNto1Sync (eff : RunEffects) : RunResult :=
  if ¬ eff.lockAcquired then
    { escaped := none
      lockReleased := false
      summaryLogged := none
      summaryStored := false }
  else
    match eff.initProgress with
    | .error e =>
      { escaped := some e
        lockReleased := false
        summaryLogged := none
        summaryStored := false }
    | .ok _ =>
      let (syncSuccess, criticalErrors, recoverableErrors) :=
        match eff.body with
        | .ok (c, r, s) => (s, c, r)
        | .error (_, c, r) => (false, c + 1, r)
      { escaped := none
        lockReleased := true
        summaryLogged := some
          { success := syncSuccess
            criticalErrors := criticalErrors
            recoverableErrors := recoverableErrors
            timestamp := eff.now }
        summaryStored := eff.storeStatus.isOk }

/-- An event with only an id, every other field absent (`updated` 0):
convenient concrete input. -/
def mkEvent (id : String) : Event :=
  { id := id
    summary := none
    description := none
    location := none
    start := none
    «end» := none
    attendees := none
    reminders := none
    transparency := none
    visibility := none
    status := none
    updated := 0
    extendedProperties := none }

/-- The `SYNC_VERSION` token of a built payload. -/
def payloadSyncVersion (p : EventPayload) : Int :=
  p.extendedProperties.«private».SYNC_VERSION

/-- The `SYNC_UPDATED` stamp of a built payload. -/
def payloadSyncUpdated (p : EventPayload) : Int :=
  p.extendedProperties.«private».SYNC_UPDATED

/-- A state in which event `e1` was last written to calendar `A` because of a
change originating in calendar `T` (entry recorded at time 0). -/
def mgrAfterReverseWrite : SyncStateManager :=
  { syncOperations := []
    changeOrigin := [("A:e1",
      { originCalendarId := "T", timestamp := 0, operationId := "op0" })]
    operationHistory := []
    loopDetectionWindow := 300000 }

/-- The private sync properties of the concrete mirror event below. -/
def tgtMirrorProps : PrivateProps :=
  { SYNC_KEY := some "A:e1"
    SYNC_SOURCE := some "A"
    SYNC_ORIGINAL_ID := some "e1"
    SYNC_VERSION := none
    SYNC_UPDATED := none }

/-- A target event mirroring source event `e1` of calendar `A`
(sync key `A:e1`), last updated at 500. -/
def tgtMirror : Event :=
  { mkEvent "t1" with
    updated := 500
    extendedProperties := some { «private» := some tgtMirrorProps } }

/-- The source event `e1`, last updated at 600 (newer than its mirror). -/
def srcNewer : Event := { mkEvent "e1" with updated := 600 }

/-- The states of the sync state manager the program can actually be in: the
fresh constructor state, a state whose window was reconfigured (as
`runNto1Sync` does), or the result of recording an operation at a time no
earlier than every previously recorded one (`Date.now()` is monotone). -/
inductive Reachable : SyncStateManager → Int → Prop where
  | base (t : Int) : Reachable SyncStateManager.init t
  | config {m : SyncStateManager} {t : Int} (w : Int) :
      Reachable m t → Reachable { m with loopDetectionWindow := w } t
  | record {m : SyncStateManager} {t : Int}
      (src tgt e o : String) (md : List (String × String)) (now : Int) :
      Reachable m t → t ≤ now →
      Reachable (m.recordOperation src tgt e o md now) now

/-- Every history record is no younger than the clock and is covered by a
`changeOrigin` entry under its `targetCalendarId:eventId` key that is at
least as recent — the coupling `recordOperation` establishes and
`cleanupOldOperations` preserves. -/
def originCovered (m : SyncStateManager) (t : Int) : Prop :=
  ∀ op ∈ m.operationHistory, op.timestamp ≤ t ∧
    ∃ c, mapGet m.changeOrigin
        (op.targetCalendarId ++ ":" ++ op.eventId) = some c ∧
      op.timestamp ≤ c.timestamp

/-- The state reached from a fresh manager by recording four alternating
operations on event `e1` between calendars `A` and `B` at times 1..4. -/
def mgrPingPong : SyncStateManager :=
  (((SyncStateManager.init.recordOperation "A" "B" "e1" "update" [] 1)
    |>.recordOperation "B" "A" "e1" "update" [] 2)
    |>.recordOperation "A" "B" "e1" "update" [] 3)
    |>.recordOperation "B" "A" "e1" "update" [] 4

/-- C1: `wouldCreateLoop(fromCalendar, toCalendar, eventId)` returns true when
the `changeOrigin` entry under key `fromCalendar:eventId` exists, its
`originCalendarId` equals `toCalendar`, and its recorded timestamp is younger
than the loop-detection window (whose default, set by the constructor, is
5 minutes = 300000 ms); when no such entry exists and no ping-pong pattern is
present in the recent history, it returns false. -/
theorem wouldCreateLoop_spec (m : SyncStateManager) (now : Int)
    (fromCalendar toCalendar eventId operation : String) :
    SyncStateManager.init.loopDetectionWindow = 300000 ∧
    (∀ c, mapGet m.changeOrigin (fromCalendar ++ ":" ++ eventId) = some c →
      c.originCalendarId = toCalendar →
      now - c.timestamp < m.loopDetectionWindow →
      m.wouldCreateLoop now fromCalendar toCalendar eventId operation
        = true) ∧
    (mapGet m.changeOrigin (fromCalendar ++ ":" ++ eventId) = none →
      m.detectPingPongPattern now fromCalendar toCalendar eventId = false →
      m.wouldCreateLoop now fromCalendar toCalendar eventId operation
        = false) := by
  refine ⟨rfl, ?_, ?_⟩
  · intro c hc h1 h2
    simp [SyncStateManager.wouldCreateLoop, hc, h1, h2]
  · intro hn _
    simp [SyncStateManager.wouldCreateLoop, hn]

theorem wouldCreateLoop_spec_witness :
    ((SyncStateManager.init.recordOperation "B" "A" "e1" "update" [] 10
      |>.wouldCreateLoop 20 "A" "B" "e1" "update") = true) ∧
    (SyncStateManager.init.wouldCreateLoop 0 "A" "B" "e1" "update" = false) :=
  ⟨(wouldCreateLoop_spec
        (SyncStateManager.init.recordOperation "B" "A" "e1" "update" [] 10)
        20 "A" "B" "e1" "update").2.1
      { originCalendarId := "B", timestamp := 10,
        operationId := "A:e1:update:10" }
      (by decide) (by decide) (by decide),
   (wouldCreateLoop_spec SyncStateManager.init 0 "A" "B" "e1" "update").2.2
      (by decide) (by decide)⟩

/-- C2: `shouldSkipSync(fromCalendar, toCalendar, eventId, fromUpdated,
toUpdated)` returns true if and only if a `changeOrigin` entry under key
`toCalendar:eventId` exists whose `originCalendarId` equals `fromCalendar`
and whose timestamp is within the loop-detection window of the current time,
and the two compared timestamps differ by less than one minute (60000 ms). -/
theorem shouldSkipSync_iff (m : SyncStateManager) (now : Int)
    (fromCalendar toCalendar eventId : String) (fromUpdated toUpdated : Int) :
    m.shouldSkipSync now fromCalendar toCalendar eventId fromUpdated
        toUpdated = true ↔
      ∃ c, mapGet m.changeOrigin (toCalendar ++ ":" ++ eventId) = some c ∧
        c.originCalendarId = fromCalendar ∧
        now - c.timestamp < m.loopDetectionWindow ∧
        (fromUpdated - toUpdated).natAbs < 60000 := by
  unfold SyncStateManager.shouldSkipSync
  cases h : mapGet m.changeOrigin (toCalendar ++ ":" ++ eventId) with
  | none => simp [h]
  | some c =>
    simp only [h]
    constructor
    · intro ht
      refine ⟨c, rfl, ?_⟩
      by_cases h1 : c.originCalendarId = fromCalendar ∧
          now - c.timestamp < m.loopDetectionWindow
      · by_cases h2 : (fromUpdated - toUpdated).natAbs < 60000
        · exact ⟨h1.1, h1.2, h2⟩
        · simp [h1, h2] at ht
      · simp [h1] at ht
    · rintro ⟨c', hc', h1, h2, h3⟩
      obtain rfl : c = c' := by simpa [h] using hc'
      simp [h1, h2, h3]

theorem shouldSkipSync_iff_witness :
    (SyncStateManager.init.recordOperation "A" "B" "e1" "update" [] 10
      |>.shouldSkipSync 20 "A" "B" "e1" 1000 50000) = true :=
  (shouldSkipSync_iff
      (SyncStateManager.init.recordOperation "A" "B" "e1" "update" [] 10)
      20 "A" "B" "e1" 1000 50000).mpr
    ⟨{ originCalendarId := "A", timestamp := 10,
       operationId := "B:e1:update:10" },
      by decide, by decide, by decide, by decide⟩

/-- Splitting at a separator that occurs in neither left part is unambiguous. -/
theorem append_sep_inj {α : Type} (a : α) :
    ∀ (l1 l2 r1 r2 : List α), a ∉ l1 → a ∉ l2 →
      l1 ++ a :: r1 = l2 ++ a :: r2 → l1 = l2 ∧ r1 = r2 := by
  intro l1
  induction l1 with
  | nil =>
    intro l2 r1 r2 _ h2 h
    cases l2 with
    | nil => simpa using h
    | cons b bs =>
      simp only [List.nil_append, List.cons_append, List.cons.injEq] at h
      exact absurd (h.1 ▸ List.mem_cons_self b bs) h2
  | cons b bs ih =>
    intro l2 r1 r2 h1 h2 h
    cases l2 with
    | nil =>
      simp only [List.nil_append, List.cons_append, List.cons.injEq] at h
      exact absurd (h.1 ▸ List.mem_cons_self b bs) h1
    | cons c cs =>
      simp only [List.cons_append, List.cons.injEq] at h
      obtain ⟨rfl, h⟩ := h
      obtain ⟨rfl, rfl⟩ := ih cs r1 r2 (fun hm => h1 (List.mem_cons_of_mem _ hm))
        (fun hm => h2 (List.mem_cons_of_mem _ hm)) h
      exact ⟨rfl, rfl⟩

/-- C5 counterexample: the sync key is bare string concatenation with `":"`,
so over arbitrary calendar-id and event-id strings the pair map is *not*
injective: calendar `"a:b"` with event `"c"` and calendar `"a"` with event
`"b:c"` share the key `"a:b:c"` although the pairs differ. -/
theorem generateSyncKey_not_injective :
    generateSyncKey (mkEvent "c") "a:b" = generateSyncKey (mkEvent "b:c") "a" ∧
    ¬ (("a:b" : String) = "a" ∧ (mkEvent "c").id = (mkEvent "b:c").id) := by
  constructor
  · rfl
  · intro h
    exact absurd h.1 (by decide)

/-- C5 (amended): `generateSyncKey(e, c)` returns `c ++ ":" ++ e.id`, and the
map from `(calendar id, event id)` to the key is injective provided the
calendar ids contain no colon (which holds for Google calendar ids — they are
email addresses). -/
theorem generateSyncKey_inj (e1 e2 : Event) (c1 c2 : String)
    (h1 : ':' ∉ c1.data) (h2 : ':' ∉ c2.data)
    (heq : generateSyncKey e1 c1 = generateSyncKey e2 c2) :
    generateSyncKey e1 c1 = c1 ++ ":" ++ e1.id ∧ c1 = c2 ∧ e1.id = e2.id := by
  refine ⟨rfl, ?_⟩
  have hd := congrArg String.data heq
  simp only [generateSyncKey, String.data_append] at hd
  have hd' : c1.data ++ ':' :: e1.id.data = c2.data ++ ':' :: e2.id.data := by
    simpa [List.append_assoc] using hd
  obtain ⟨hc, he⟩ := append_sep_inj ':' c1.data c2.data e1.id.data e2.id.data
    h1 h2 hd'
  exact ⟨String.ext hc, String.ext he⟩

theorem generateSyncKey_inj_witness :
    generateSyncKey (mkEvent "event123") "cal@google.com"
        = "cal@google.com" ++ ":" ++ "event123" ∧
    ("cal@google.com" : String) = "cal@google.com" ∧
    (mkEvent "event123").id = (mkEvent "event123").id :=
  generateSyncKey_inj (mkEvent "event123") (mkEvent "event123")
    "cal@google.com" "cal@google.com" (by decide) (by decide) rfl

/-- C6 counterexample: it is *not* the case that two calls of
`_buildEventPayload` on the same inputs always produce different
`SYNC_VERSION` values — `generateSyncVersion` is the millisecond clock
reading, so two calls within the same millisecond (clock reading 42 twice)
yield identical `SYNC_VERSION` (and `SYNC_UPDATED`) values. -/
theorem buildEventPayload_version_not_always_fresh :
    ¬ (∀ t1 t2 : Int, t1 ≤ t2 →
      payloadSyncVersion (_buildEventPayload (mkEvent "e1") "A" t1) ≠
        payloadSyncVersion (_buildEventPayload (mkEvent "e1") "A" t2)) :=
  fun h => h 42 42 le_rfl rfl

/-- C6 (amended): two calls of `_buildEventPayload` on the same source event
and calendar id produce payloads with identical content fields (summary,
description, location, start, end, attendees, reminders, transparency,
visibility); their `SYNC_VERSION` and `SYNC_UPDATED` values differ exactly
when the two calls read different millisecond clock values. -/
theorem buildEventPayload_content_stable (sourceEvent : Event)
    (sourceCalendarId : String) (t1 t2 : Int) (hne : t1 ≠ t2) :
    payloadContent (_buildEventPayload sourceEvent sourceCalendarId t1) =
      payloadContent (_buildEventPayload sourceEvent sourceCalendarId t2) ∧
    payloadSyncVersion (_buildEventPayload sourceEvent sourceCalendarId t1) ≠
      payloadSyncVersion (_buildEventPayload sourceEvent sourceCalendarId t2) ∧
    payloadSyncUpdated (_buildEventPayload sourceEvent sourceCalendarId t1) ≠
      payloadSyncUpdated (_buildEventPayload sourceEvent sourceCalendarId t2) :=
  ⟨rfl, hne, hne⟩

theorem buildEventPayload_content_stable_witness :
    payloadContent (_buildEventPayload (mkEvent "e1") "A" 0) =
      payloadContent (_buildEventPayload (mkEvent "e1") "A" 1) ∧
    payloadSyncVersion (_buildEventPayload (mkEvent "e1") "A" 0) ≠
      payloadSyncVersion (_buildEventPayload (mkEvent "e1") "A" 1) ∧
    payloadSyncUpdated (_buildEventPayload (mkEvent "e1") "A" 0) ≠
      payloadSyncUpdated (_buildEventPayload (mkEvent "e1") "A" 1) :=
  buildEventPayload_content_stable (mkEvent "e1") "A" 0 1 (by decide)

/-- C9: evaluation of `runNto1Sync` at the failing input.  When the lock is
acquired and `initializeProgressTracking` throws (its `setProperty` call runs
after lock acquisition but *before* the `try`/`catch`/`finally` block), the
exception escapes the entry point, the lock is never released, and no summary
is logged or stored — contradicting the specification's guarantee that no
exception escapes and that the lock is released and a summary recorded even
on total failure. -/
theorem runNto1Sync_exception_escapes_with_lock_held :
    runNto1Sync
      { lockAcquired := true
        initProgress := Except.error
          "ScriptProperties write failed in initializeProgressTracking"
        body := Except.ok (0, 0, true)
        storeStatus := Except.ok ()
        now := 0 } =
      { escaped := some
          "ScriptProperties write failed in initializeProgressTracking"
        lockReleased := false
        summaryLogged := none
        summaryStored := false } := rfl

/-- C10 counterexample: `deleteEvent` returns the result of the underlying
`remove` call on success (the repository's own unit test asserts
`expect(result).toBe(mockResult)`), and `undefined` only on the caught-error
path — so a caller *can* distinguish the two outcomes by the return value
whenever `remove` returns a non-undefined result. -/
theorem deleteEvent_result_distinguishes_outcomes :
    (deleteEvent "cal@google.com" "event123"
        (Except.ok "mockResult" : Except JsError String)).1 =
      Except.ok (some "mockResult") ∧
    (deleteEvent "cal@google.com" "event123"
        (Except.error { message := "API Error" } : Except JsError String)).1 =
      Except.ok none ∧
    (some "mockResult" : Option String) ≠ none :=
  ⟨rfl, rfl, by decide⟩

/-- C10 (amended): `deleteEvent` never throws — every error raised by the
underlying `remove` call, "Not Found" or any other, is caught and logged and
the function then returns `undefined`; on success, however, it returns the
underlying `remove` call's own result, so the success and failure outcomes
are indistinguishable by the return value only when that result is itself
`undefined`. -/
theorem deleteEvent_never_throws {α : Type} (calendarId eventId : String)
    (removeResult : Except JsError α) :
    (∃ r, (deleteEvent calendarId eventId removeResult).1 = Except.ok r) ∧
    (∀ e, removeResult = Except.error e →
      (deleteEvent calendarId eventId removeResult).1 = Except.ok none ∧
      (deleteEvent calendarId eventId removeResult).2 ≠ []) ∧
    (∀ v, removeResult = Except.ok v →
      (deleteEvent calendarId eventId removeResult).1 =
        Except.ok (some v)) := by
  cases removeResult with
  | ok v =>
    refine ⟨⟨some v, rfl⟩, ?_, ?_⟩
    · intro e he; cases he
    · intro v' hv'; cases hv'; rfl
  | error e =>
    refine ⟨⟨none, ?_⟩, ?_, ?_⟩
    · simp only [deleteEvent]
      split <;> rfl
    · intro e' he'
      cases he'
      constructor
      · simp only [deleteEvent]
        split <;> rfl
      · simp only [deleteEvent]
        split <;> simp
    · intro v hv; cases hv

theorem deleteEvent_never_throws_witness :
    (∃ r, (deleteEvent "cal@google.com" "event123"
        (Except.error { message := "API Error" } : Except JsError String)).1 =
      Except.ok r) ∧
    (deleteEvent "cal@google.com" "event123"
        (Except.error { message := "API Error" } : Except JsError String)).1 =
      Except.ok none ∧
    (deleteEvent "cal@google.com" "event123"
        (Except.error { message := "API Error" } : Except JsError String)).2 ≠
      [] :=
  ⟨(deleteEvent_never_throws "cal@google.com" "event123"
      (Except.error { message := "API Error" } : Except JsError String)).1,
    (deleteEvent_never_throws "cal@google.com" "event123"
      (Except.error { message := "API Error" } : Except JsError String)).2.1
      { message := "API Error" } rfl⟩

/-- C4 counterexample: a matched, non-cancelled source event whose `updated`
is strictly newer than its mirror's, with the should-skip check not firing,
can still produce no write — the loop guard (`wouldCreateLoop`) runs first
and suppresses the event.  Here event `e1` was recently written to calendar
`A` because of a change from the target `T`, so the forward pass skips it. -/
theorem forward_update_despite_conditions_not_taken :
    srcNewer.status ≠ some "cancelled" ∧
    mapGet (createEventMapForSource [tgtMirror] "A")
        (generateSyncKey srcNewer "A") = some tgtMirror ∧
    tgtMirror.updated < srcNewer.updated ∧
    mgrAfterReverseWrite.shouldSkipSync 1000 "A" "T" "e1"
        srcNewer.updated tgtMirror.updated = false ∧
    (processSourceEvent mgrAfterReverseWrite 1000 "A" "T" [tgtMirror]
        srcNewer).1 = SyncAction.skippedLoop := by
  refine ⟨by decide, by decide, by decide, by decide, by decide⟩

/-- C4 (amended): for a source event matched by sync key to a target event,
with the source not cancelled, the forward pass writes an update to the
mirror if and only if the loop guard does not fire, the should-skip check
does not fire, and `sourceEvent.updated` is strictly newer than
`targetEvent.updated`; whenever `sourceEvent.updated` is before or equal to
`targetEvent.updated`, no write of any kind is performed for that event. -/
theorem forward_update_rule (syncStateManager : SyncStateManager) (now : Int)
    (sourceId targetId : String) (allTargetEvents : List Event)
    (sourceEvent targetEvent : Event)
    (hmatch : mapGet (createEventMapForSource allTargetEvents sourceId)
      (generateSyncKey sourceEvent sourceId) = some targetEvent)
    (hstatus : sourceEvent.status ≠ some "cancelled") :
    ((processSourceEvent syncStateManager now sourceId targetId
        allTargetEvents sourceEvent).1 =
          SyncAction.updatedInTarget targetEvent.id ↔
      (syncStateManager.wouldCreateLoop now sourceId targetId sourceEvent.id
          "update" = false ∧
        syncStateManager.shouldSkipSync now sourceId targetId sourceEvent.id
          sourceEvent.updated targetEvent.updated = false ∧
        targetEvent.updated < sourceEvent.updated)) ∧
    (sourceEvent.updated ≤ targetEvent.updated →
      ((processSourceEvent syncStateManager now sourceId targetId
        allTargetEvents sourceEvent).1).isWrite = false) := by
  simp only [processSourceEvent, hmatch]
  constructor
  · constructor
    · intro h
      by_cases hloop : syncStateManager.wouldCreateLoop now sourceId targetId
          sourceEvent.id "update" = true
      · simp [hloop] at h
      · rw [Bool.not_eq_true] at hloop
        simp only [hloop, Bool.false_eq_true, if_false,
          if_neg hstatus] at h
        by_cases hskip : syncStateManager.shouldSkipSync now sourceId targetId
            sourceEvent.id sourceEvent.updated targetEvent.updated = true
        · simp [hskip] at h
        · rw [Bool.not_eq_true] at hskip
          simp only [hskip, Bool.false_eq_true, if_false] at h
          by_cases hlt : targetEvent.updated < sourceEvent.updated
          · exact ⟨hloop, hskip, hlt⟩
          · simp [hlt] at h
    · rintro ⟨hloop, hskip, hlt⟩
      simp [hloop, hskip, hlt, hstatus]
  · intro hle
    have hnlt : ¬ targetEvent.updated < sourceEvent.updated := by omega
    by_cases hloop : syncStateManager.wouldCreateLoop now sourceId targetId
        sourceEvent.id "update" = true
    · simp [hloop, SyncAction.isWrite]
    · rw [Bool.not_eq_true] at hloop
      by_cases hskip : syncStateManager.shouldSkipSync now sourceId targetId
          sourceEvent.id sourceEvent.updated targetEvent.updated = true
      · simp [hloop, hskip, hstatus, SyncAction.isWrite]
      · rw [Bool.not_eq_true] at hskip
        simp [hloop, hskip, hstatus, hnlt, SyncAction.isWrite]

theorem forward_update_rule_witness :
    ((processSourceEvent SyncStateManager.init 1000 "A" "T" [tgtMirror]
        srcNewer).1 = SyncAction.updatedInTarget tgtMirror.id ↔
      (SyncStateManager.init.wouldCreateLoop 1000 "A" "T" srcNewer.id
          "update" = false ∧
        SyncStateManager.init.shouldSkipSync 1000 "A" "T" srcNewer.id
          srcNewer.updated tgtMirror.updated = false ∧
        tgtMirror.updated < srcNewer.updated)) ∧
    (srcNewer.updated ≤ tgtMirror.updated →
      ((processSourceEvent SyncStateManager.init 1000 "A" "T" [tgtMirror]
        srcNewer).1).isWrite = false) :=
  forward_update_rule SyncStateManager.init 1000 "A" "T" [tgtMirror]
    srcNewer tgtMirror (by decide) (by decide)

/-- A `find?` hit is the first satisfying element: everything before it fails
the predicate. -/
theorem find?_first {α : Type} (p : α → Bool) :
    ∀ (l : List α) (a : α), l.find? p = some a →
      ∃ l1 l2, l = l1 ++ a :: l2 ∧ ∀ x ∈ l1, p x = false := by
  intro l
  induction l with
  | nil => intro a h; simp [List.find?] at h
  | cons b bs ih =>
    intro a h
    by_cases hb : p b = true
    · rw [List.find?_cons_of_pos _ hb] at h
      cases h
      exact ⟨[], bs, rfl, by simp⟩
    · rw [List.find?_cons_of_neg _ hb] at h
      obtain ⟨l1, l2, rfl, hall⟩ := ih a h
      refine ⟨b :: l1, l2, rfl, ?_⟩
      intro x hx
      rcases List.mem_cons.mp hx with rfl | hx
      · exact Bool.not_eq_true _ ▸ hb
      · exact hall x hx

/-- The matcher predicate holds exactly when the candidate has no truthy
`SYNC_KEY` and its summary, resolved start, and resolved end equal the source
event's. -/
theorem eventAttributesMatch_iff (sourceEvent event : Event) :
    eventAttributesMatch sourceEvent event = true ↔
      (truthy event.syncKeyProp = false ∧
        event.summary = sourceEvent.summary ∧
        resolvedStart event = resolvedStart sourceEvent ∧
        resolvedEnd event = resolvedEnd sourceEvent) := by
  unfold eventAttributesMatch
  by_cases h : truthy event.syncKeyProp
  · simp [h]
  · rw [Bool.not_eq_true] at h
    simp only [h, Bool.false_eq_true, if_false, Bool.and_eq_true,
      decide_eq_true_eq]
    constructor
    · rintro ⟨⟨h1, h2⟩, h3⟩
      exact ⟨trivial, h1, h2.symm, h3.symm⟩
    · rintro ⟨-, h1, h2, h3⟩
      exact ⟨⟨h1, h2.symm⟩, h3.symm⟩

/-- C7: the attribute-fallback matcher considers only target events without
(truthy) sync metadata and returns the first whose summary, resolved start,
and resolved end exactly equal the source event's (both the `dateTime` and
the `date` forms are resolved before comparison); it returns `none` when no
such exact match exists, and never matches more loosely. -/
theorem findEventByAttributes_spec (events : List Event)
    (sourceEvent : Event) :
    (∀ e, findEventByAttributes events sourceEvent = some e →
      truthy e.syncKeyProp = false ∧
      e.summary = sourceEvent.summary ∧
      resolvedStart e = resolvedStart sourceEvent ∧
      resolvedEnd e = resolvedEnd sourceEvent ∧
      ∃ l1 l2, events = l1 ++ e :: l2 ∧
        ∀ x ∈ l1, ¬ (truthy x.syncKeyProp = false ∧
          x.summary = sourceEvent.summary ∧
          resolvedStart x = resolvedStart sourceEvent ∧
          resolvedEnd x = resolvedEnd sourceEvent)) ∧
    ((∀ x ∈ events, truthy x.syncKeyProp = false →
        ¬ (x.summary = sourceEvent.summary ∧
          resolvedStart x = resolvedStart sourceEvent ∧
          resolvedEnd x = resolvedEnd sourceEvent)) →
      findEventByAttributes events sourceEvent = none) := by
  constructor
  · intro e h
    have hp : eventAttributesMatch sourceEvent e = true := List.find?_some h
    obtain ⟨h1, h2, h3, h4⟩ := (eventAttributesMatch_iff sourceEvent e).mp hp
    refine ⟨h1, h2, h3, h4, ?_⟩
    obtain ⟨l1, l2, rfl, hall⟩ := find?_first _ events e h
    refine ⟨l1, l2, rfl, ?_⟩
    intro x hx hcond
    have : eventAttributesMatch sourceEvent x = true :=
      (eventAttributesMatch_iff sourceEvent x).mpr hcond
    rw [hall x hx] at this
    exact Bool.false_ne_true this
  · intro hnone
    rw [findEventByAttributes, List.find?_eq_none]
    intro x hx hp
    obtain ⟨h1, h2, h3, h4⟩ := (eventAttributesMatch_iff sourceEvent x).mp hp
    exact hnone x hx h1 ⟨h2, h3, h4⟩

theorem findEventByAttributes_spec_witness :
    (truthy (mkEvent "t9").syncKeyProp = false ∧
      (mkEvent "t9").summary = (mkEvent "s1").summary ∧
      resolvedStart (mkEvent "t9") = resolvedStart (mkEvent "s1") ∧
      resolvedEnd (mkEvent "t9") = resolvedEnd (mkEvent "s1") ∧
      ∃ l1 l2, [mkEvent "t9"] = l1 ++ mkEvent "t9" :: l2 ∧
        ∀ x ∈ l1, ¬ (truthy x.syncKeyProp = false ∧
          x.summary = (mkEvent "s1").summary ∧
          resolvedStart x = resolvedStart (mkEvent "s1") ∧
          resolvedEnd x = resolvedEnd (mkEvent "s1"))) ∧
    findEventByAttributes [tgtMirror] (mkEvent "s1") = none :=
  ⟨(findEventByAttributes_spec [mkEvent "t9"] (mkEvent "s1")).1
      (mkEvent "t9") (by decide),
    (findEventByAttributes_spec [tgtMirror] (mkEvent "s1")).2
      (by decide)⟩

/-- After a cleanup pass: the history is capped at `maxHistorySize`, every
surviving record in all three structures is strictly younger than the
loop-detection window, and the capped history is a suffix of the
window-filtered history (so the oldest records are the ones dropped). -/
theorem cleanupOldOperations_spec (m : SyncStateManager) (now : Int) :
    (m.cleanupOldOperations now).operationHistory.length ≤ maxHistorySize ∧
    ((m.cleanupOldOperations now).operationHistory.all
      (fun r => decide (now - r.timestamp < m.loopDetectionWindow)) = true) ∧
    ((m.cleanupOldOperations now).syncOperations.all
      (fun p => decide (now - p.2.timestamp < m.loopDetectionWindow))
        = true) ∧
    ((m.cleanupOldOperations now).changeOrigin.all
      (fun p => decide (now - p.2.timestamp < m.loopDetectionWindow))
        = true) ∧
    List.IsSuffix (m.cleanupOldOperations now).operationHistory
      (m.operationHistory.filter
        (fun op => now - m.loopDetectionWindow < op.timestamp)) := by
  simp only [SyncStateManager.cleanupOldOperations]
  refine ⟨?_, ?_, ?_, ?_, ?_⟩
  · split
    next hlen => rw [List.length_drop]; omega
    next hlen => omega
  · rw [List.all_eq_true]
    intro r hr
    have hr' : r ∈ m.operationHistory.filter
        (fun op => now - m.loopDetectionWindow < op.timestamp) := by
      revert hr; split
      · intro hr; exact List.drop_subset _ _ hr
      · intro hr; exact hr
    have := of_decide_eq_true (List.mem_filter.mp hr').2
    exact decide_eq_true (by omega)
  · rw [List.all_eq_true]
    intro p hp
    have := of_decide_eq_true (List.mem_filter.mp hp).2
    exact decide_eq_true (by omega)
  · rw [List.all_eq_true]
    intro p hp
    have := of_decide_eq_true (List.mem_filter.mp hp).2
    exact decide_eq_true (by omega)
  · split
    · exact List.drop_suffix _ _
    · exact List.suffix_refl _

/-- C8: after every `recordOperation` call the state satisfies: the operation
history holds at most 1000 (`maxHistorySize`) records; every record remaining
in the history, the `syncOperations` map, and the `changeOrigin` map is
strictly younger than the loop-detection window relative to the current time;
and the history is a suffix of the window-filtered appended history, so when
the cap is exceeded it is the oldest records that are dropped. -/
theorem recordOperation_invariant (m : SyncStateManager)
    (sourceCalendarId targetCalendarId eventId operation : String)
    (metadata : List (String × String)) (now : Int) :
    (m.recordOperation sourceCalendarId targetCalendarId eventId operation
        metadata now).operationHistory.length ≤ maxHistorySize ∧
    ((m.recordOperation sourceCalendarId targetCalendarId eventId operation
        metadata now).operationHistory.all
      (fun r => decide (now - r.timestamp < m.loopDetectionWindow)) = true) ∧
    ((m.recordOperation sourceCalendarId targetCalendarId eventId operation
        metadata now).syncOperations.all
      (fun p => decide (now - p.2.timestamp < m.loopDetectionWindow))
        = true) ∧
    ((m.recordOperation sourceCalendarId targetCalendarId eventId operation
        metadata now).changeOrigin.all
      (fun p => decide (now - p.2.timestamp < m.loopDetectionWindow))
        = true) ∧
    List.IsSuffix (m.recordOperation sourceCalendarId targetCalendarId
        eventId operation metadata now).operationHistory
      ((m.operationHistory ++
        [({ id := generateOperationId targetCalendarId eventId operation now
            sourceCalendarId := sourceCalendarId
            targetCalendarId := targetCalendarId
            eventId := eventId
            operation := operation
            timestamp := now
            metadata := metadata } : OperationRecord)]).filter
        (fun op => now - m.loopDetectionWindow < op.timestamp)) :=
  cleanupOldOperations_spec
    { m with
      operationHistory := m.operationHistory ++
        [({ id := generateOperationId targetCalendarId eventId operation now
            sourceCalendarId := sourceCalendarId
            targetCalendarId := targetCalendarId
            eventId := eventId
            operation := operation
            timestamp := now
            metadata := metadata } : OperationRecord)]
      syncOperations := mapSet m.syncOperations
        (generateOperationId targetCalendarId eventId operation now)
        { id := generateOperationId targetCalendarId eventId operation now
          sourceCalendarId := sourceCalendarId
          targetCalendarId := targetCalendarId
          eventId := eventId
          operation := operation
          timestamp := now
          metadata := metadata }
      changeOrigin := mapSet m.changeOrigin
        (targetCalendarId ++ ":" ++ eventId)
        { originCalendarId := sourceCalendarId
          timestamp := now
          operationId :=
            generateOperationId targetCalendarId eventId operation now } }
    now

/-- Setting a key makes it immediately readable. -/
theorem mapGet_mapSet_self {α : Type} (m : List (String × α)) (k : String)
    (v : α) : mapGet (mapSet m k v) k = some v := by
  unfold mapSet
  split
  next hany =>
    induction m with
    | nil => simp at hany
    | cons p ps ih =>
      by_cases hp : p.1 = k
      · simp [mapGet, hp]
      · have hany' : ps.any (fun p => p.1 = k) = true := by
          simp only [List.any_cons, Bool.or_eq_true, decide_eq_true_eq]
            at hany
          rcases hany with h | h
          · exact absurd h hp
          · simpa using h
        simp only [List.map_cons, if_neg hp]
        rw [mapGet, List.find?_cons_of_neg, ← mapGet]
        · exact ih hany'
        · simpa using hp
  next hany =>
    induction m with
    | nil => simp [mapGet]
    | cons p ps ih =>
      simp only [List.any_cons, Bool.or_eq_true, decide_eq_true_eq, not_or]
        at hany
      rw [List.cons_append, mapGet, List.find?_cons_of_neg, ← mapGet]
      · exact ih (by simpa using hany.2)
      · simpa using hany.1

/-- Lookup steps over a non-matching head entry. -/
theorem mapGet_cons_ne {α : Type} (p : String × α) (ps : List (String × α))
    (k : String) (h : ¬ p.1 = k) : mapGet (p :: ps) k = mapGet ps k := by
  rw [mapGet, List.find?_cons_of_neg, mapGet]
  simpa using h

/-- Lookup stops at a matching head entry. -/
theorem mapGet_cons_self {α : Type} (p : String × α) (ps : List (String × α))
    (k : String) (h : p.1 = k) : mapGet (p :: ps) k = some p.2 := by
  rw [mapGet, List.find?_cons_of_pos]
  · rfl
  · simpa using h

/-- Setting one key leaves every other key's lookup unchanged. -/
theorem mapGet_mapSet_ne {α : Type} (m : List (String × α)) (k k' : String)
    (v : α) (hne : k' ≠ k) : mapGet (mapSet m k v) k' = mapGet m k' := by
  unfold mapSet
  split
  next hany =>
    clear hany
    induction m with
    | nil => rfl
    | cons p ps ih =>
      simp only [List.map_cons]
      by_cases hpk : p.1 = k
      · rw [if_pos hpk, mapGet_cons_ne ((k, v)) _ k' (fun h => hne h.symm),
          mapGet_cons_ne p ps k' (fun h => hne ((hpk ▸ h).symm))]
        exact ih
      · rw [if_neg hpk]
        by_cases hp : p.1 = k'
        · rw [mapGet_cons_self p _ k' hp, mapGet_cons_self p ps k' hp]
        · rw [mapGet_cons_ne p _ k' hp, mapGet_cons_ne p ps k' hp]
          exact ih
  next hany =>
    clear hany
    induction m with
    | nil =>
      simp only [List.nil_append]
      rw [mapGet_cons_ne ((k, v)) [] k' (fun h => hne h.symm)]
    | cons p ps ih =>
      rw [List.cons_append]
      by_cases hp : p.1 = k'
      · rw [mapGet_cons_self p _ k' hp, mapGet_cons_self p ps k' hp]
      · rw [mapGet_cons_ne p _ k' hp, mapGet_cons_ne p ps k' hp]
        exact ih

/-- A lookup survives a filter pass that keeps its entry. -/
theorem mapGet_filter {α : Type} (q : (String × α) → Bool)
    (m : List (String × α)) (k : String) (c : α) (hc : mapGet m k = some c)
    (hq : q (k, c) = true) : mapGet (m.filter q) k = some c := by
  induction m with
  | nil => simp [mapGet] at hc
  | cons p ps ih =>
    by_cases hp : p.1 = k
    · rw [mapGet_cons_self p ps k hp] at hc
      obtain rfl : p.2 = c := by simpa using hc
      have hpc : p = (k, p.2) := by
        cases p
        simpa using hp
      rw [List.filter_cons, hpc, if_pos (by simpa using hq)]
      exact mapGet_cons_self _ _ _ rfl
    · rw [mapGet_cons_ne p ps k hp] at hc
      rw [List.filter_cons]
      split
      · rw [mapGet_cons_ne p _ k hp]
        exact ih hc
      · exact ih hc

/-- Membership through the stable insertion. -/
theorem mem_insertByTimestampDesc (x y : OperationRecord) :
    ∀ l : List OperationRecord,
      y ∈ insertByTimestampDesc x l ↔ y = x ∨ y ∈ l := by
  intro l
  induction l with
  | nil => simp [insertByTimestampDesc]
  | cons z zs ih =>
    unfold insertByTimestampDesc
    split
    · simp only [List.mem_cons, ih]
      tauto
    · simp only [List.mem_cons]

/-- The stable sort is made of the original records. -/
theorem mem_of_mem_sortByTimestampDesc (x : OperationRecord)
    (l : List OperationRecord) (h : x ∈ sortByTimestampDesc l) : x ∈ l := by
  suffices hgen : ∀ (l acc : List OperationRecord),
      x ∈ l.foldl (fun acc y => insertByTimestampDesc y acc) acc →
      x ∈ acc ∨ x ∈ l by
    rcases hgen l [] h with hx | hx
    · simp at hx
    · exact hx
  intro l
  induction l with
  | nil => intro acc h; exact Or.inl h
  | cons z zs ih =>
    intro acc h
    rcases ih (insertByTimestampDesc z acc) h with hx | hx
    · rcases (mem_insertByTimestampDesc z x acc).mp hx with rfl | hx
      · exact Or.inr (List.mem_cons_self _ _)
      · exact Or.inl hx
    · exact Or.inr (List.mem_cons_of_mem _ hx)

/-- Alternation of the first two records of an alternating run. -/
theorem isAlternating_head (a b : OperationRecord)
    (l : List OperationRecord) (h : isAlternating (a :: b :: l) = true) :
    b.sourceCalendarId = a.targetCalendarId ∧
      b.targetCalendarId = a.sourceCalendarId := by
  simp only [isAlternating, Bool.and_eq_true, decide_eq_true_eq] at h
  exact h.1

/-- Recording preserves origin coverage: after recording at time
`now` (no earlier than every previously recorded time), every surviving
history record still has a covering `changeOrigin` entry. -/
theorem originCovered_record (m : SyncStateManager) (t now : Int)
    (src tgt e o : String) (md : List (String × String))
    (hcov : originCovered m t) (hle : t ≤ now) :
    originCovered (m.recordOperation src tgt e o md now) now := by
  intro op hop
  have hop' : op ∈ (if maxHistorySize <
      ((m.operationHistory ++
        [({ id := generateOperationId tgt e o now
            sourceCalendarId := src
            targetCalendarId := tgt
            eventId := e
            operation := o
            timestamp := now
            metadata := md } : OperationRecord)]).filter
          (fun x => decide (now - m.loopDetectionWindow <
            x.timestamp))).length then
      ((m.operationHistory ++
        [({ id := generateOperationId tgt e o now
            sourceCalendarId := src
            targetCalendarId := tgt
            eventId := e
            operation := o
            timestamp := now
            metadata := md } : OperationRecord)]).filter
          (fun x => decide (now - m.loopDetectionWindow <
            x.timestamp))).drop
        (((m.operationHistory ++
          [({ id := generateOperationId tgt e o now
              sourceCalendarId := src
              targetCalendarId := tgt
              eventId := e
              operation := o
              timestamp := now
              metadata := md } : OperationRecord)]).filter
            (fun x => decide (now - m.loopDetectionWindow <
              x.timestamp))).length - maxHistorySize)
    else
      ((m.operationHistory ++
        [({ id := generateOperationId tgt e o now
            sourceCalendarId := src
            targetCalendarId := tgt
            eventId := e
            operation := o
            timestamp := now
            metadata := md } : OperationRecord)]).filter
          (fun x => decide (now - m.loopDetectionWindow <
            x.timestamp)))) := hop
  have hmem : op ∈ (m.operationHistory ++
      [({ id := generateOperationId tgt e o now
          sourceCalendarId := src
          targetCalendarId := tgt
          eventId := e
          operation := o
          timestamp := now
          metadata := md } : OperationRecord)]).filter
        (fun x => decide (now - m.loopDetectionWindow < x.timestamp)) := by
    revert hop'
    split
    · intro hop'; exact List.drop_subset _ _ hop'
    · intro hop'; exact hop'
  obtain ⟨hmem', hwinb⟩ := List.mem_filter.mp hmem
  have hwin : now - m.loopDetectionWindow < op.timestamp :=
    of_decide_eq_true hwinb
  show op.timestamp ≤ now ∧
    ∃ c, mapGet ((mapSet m.changeOrigin (tgt ++ ":" ++ e)
        { originCalendarId := src
          timestamp := now
          operationId := generateOperationId tgt e o now }).filter
        (fun p => decide (¬ p.2.timestamp ≤
          now - m.loopDetectionWindow)))
      (op.targetCalendarId ++ ":" ++ op.eventId) = some c ∧
      op.timestamp ≤ c.timestamp
  rcases List.mem_append.mp hmem' with hold | hnew
  · obtain ⟨hts, c, hc, hcts⟩ := hcov op hold
    refine ⟨le_trans hts hle, ?_⟩
    by_cases hk : op.targetCalendarId ++ ":" ++ op.eventId = tgt ++ ":" ++ e
    · refine ⟨{ originCalendarId := src
                timestamp := now
                operationId := generateOperationId tgt e o now }, ?_, ?_⟩
      · rw [hk]
        refine mapGet_filter _ _ _ _ (mapGet_mapSet_self _ _ _)
          (decide_eq_true ?_)
        show ¬ (now : Int) ≤ now - m.loopDetectionWindow
        omega
      · show op.timestamp ≤ now
        omega
    · refine ⟨c, ?_, hcts⟩
      refine mapGet_filter _ _ _ _
        ((mapGet_mapSet_ne m.changeOrigin _ _ _ hk).trans hc)
        (decide_eq_true ?_)
      show ¬ c.timestamp ≤ now - m.loopDetectionWindow
      omega
  · rw [List.mem_singleton] at hnew
    subst hnew
    refine ⟨le_refl now, ?_⟩
    refine ⟨{ originCalendarId := src
              timestamp := now
              operationId := generateOperationId tgt e o now }, ?_,
      le_refl now⟩
    refine mapGet_filter _ _ _ _ (mapGet_mapSet_self _ _ _)
      (decide_eq_true ?_)
    show ¬ (now : Int) ≤ now - m.loopDetectionWindow
    simp only at hwin
    omega

/-- Origin coverage holds in every reachable state. -/
theorem reachable_originCovered {m : SyncStateManager} {t : Int}
    (h : Reachable m t) : originCovered m t := by
  induction h with
  | base t =>
    intro op hop
    simp [SyncStateManager.init] at hop
  | config w h ih => exact ih
  | record src tgt e o md now h hle ih =>
    exact originCovered_record _ _ _ _ _ _ _ _ ih hle

/-- C3: in every reachable state of the sync state manager, if the recent
(within-window) operations on `eventId` involving exactly the calendar pair
`{fromCalendar, toCalendar}` number at least four and the four most recent of
them alternate direction consistently (each operation's target equals the
previous operation's source and vice versa), then the fifth candidate
operation on that event is suppressed: `wouldCreateLoop` returns true
regardless of the events' `updated` timestamps, and the forward engine's
per-event processing skips the write. -/
theorem pingPong_suppresses_fifth (m : SyncStateManager) (t now : Int)
    (fromCalendar toCalendar eventId : String)
    (allTargetEvents : List Event) (sourceEvent : Event)
    (hreach : Reachable m t)
    (hne : fromCalendar ≠ toCalendar)
    (hid : sourceEvent.id = eventId)
    (hlen : 4 ≤ (recentPairOperations m now fromCalendar toCalendar
      eventId).length)
    (halt : isAlternating ((recentPairOperations m now fromCalendar
      toCalendar eventId).take 4) = true) :
    m.wouldCreateLoop now fromCalendar toCalendar eventId "update" = true ∧
    (processSourceEvent m now fromCalendar toCalendar allTargetEvents
      sourceEvent).1 = SyncAction.skippedLoop := by
  have hdetect : m.detectPingPongPattern now fromCalendar toCalendar eventId
      = true := by
    simp only [SyncStateManager.detectPingPongPattern]
    rw [if_pos hlen]
    exact halt
  obtain ⟨a, b, rest, hrec⟩ : ∃ a b rest,
      recentPairOperations m now fromCalendar toCalendar eventId
        = a :: b :: rest := by
    rcases hr : recentPairOperations m now fromCalendar toCalendar eventId
      with _ | ⟨a, _ | ⟨b, rest⟩⟩
    · rw [hr] at hlen; simp at hlen
    · rw [hr] at hlen; simp at hlen
    · exact ⟨a, b, rest, rfl⟩
  have hmem_a : a ∈ recentPairOperations m now fromCalendar toCalendar
      eventId := by
    rw [hrec]; exact List.mem_cons_self _ _
  have hmem_b : b ∈ recentPairOperations m now fromCalendar toCalendar
      eventId := by
    rw [hrec]; exact List.mem_cons_of_mem _ (List.mem_cons_self _ _)
  obtain ⟨haH, hab⟩ :=
    List.mem_filter.mp (mem_of_mem_sortByTimestampDesc a _ hmem_a)
  obtain ⟨hawin, haevt, hasrc, hatgt⟩ := of_decide_eq_true hab
  obtain ⟨hbH, hbb⟩ :=
    List.mem_filter.mp (mem_of_mem_sortByTimestampDesc b _ hmem_b)
  obtain ⟨hbwin, hbevt, hbsrc, hbtgt⟩ := of_decide_eq_true hbb
  have htake : (recentPairOperations m now fromCalendar toCalendar
      eventId).take 4 = a :: b :: rest.take 2 := by
    rw [hrec]; rfl
  have halt2 := isAlternating_head a b (rest.take 2)
    (by rw [htake] at halt; exact halt)
  have hdir : (a.sourceCalendarId = fromCalendar ∧
      a.targetCalendarId = toCalendar) ∨
      (a.sourceCalendarId = toCalendar ∧
        a.targetCalendarId = fromCalendar) := by
    rcases hasrc with h1 | h1
    · rcases hatgt with h2 | h2
      · exact absurd (h1.symm.trans h2) hne
      · exact Or.inl ⟨h1, h2⟩
    · rcases hatgt with h2 | h2
      · exact Or.inr ⟨h2, h1⟩
      · exact absurd (h1.symm.trans h2) hne
  obtain ⟨op, hopH, hoptgt, hopevt⟩ : ∃ op, op ∈ m.operationHistory ∧
      op.targetCalendarId = fromCalendar ∧ op.eventId = eventId := by
    rcases hdir with ⟨h1, h2⟩ | ⟨h1, h2⟩
    · exact ⟨b, hbH, halt2.2.trans h1, hbevt⟩
    · exact ⟨a, haH, h2, haevt⟩
  obtain ⟨-, c, hc, -⟩ := reachable_originCovered hreach op hopH
  rw [hoptgt, hopevt] at hc
  have hloop : m.wouldCreateLoop now fromCalendar toCalendar eventId
      "update" = true := by
    simp only [SyncStateManager.wouldCreateLoop, hc]
    split
    · rfl
    · exact hdetect
  refine ⟨hloop, ?_⟩
  simp only [processSourceEvent, hid, hloop, if_true]

theorem pingPong_suppresses_fifth_witness :
    SyncStateManager.wouldCreateLoop mgrPingPong 5 "A" "B" "e1" "update"
        = true ∧
    (processSourceEvent mgrPingPong 5 "A" "B" [] (mkEvent "e1")).1
        = SyncAction.skippedLoop :=
  pingPong_suppresses_fifth mgrPingPong 4 5 "A" "B" "e1" [] (mkEvent "e1")
    (Reachable.record "B" "A" "e1" "update" [] 4
      (Reachable.record "A" "B" "e1" "update" [] 3
        (Reachable.record "B" "A" "e1" "update" [] 2
          (Reachable.record "A" "B" "e1" "update" [] 1
            (Reachable.base 1) (by decide))
          (by decide))
        (by decide))
      (by decide))
    (by decide) rfl (by decide) (by decide)
